import Mathlib

/-!
Verification of the hdiutil command-wrapper library (package `hdiutil`).

The Go package wraps the external `hdiutil` disk-image utility: each verb
(create, attach, detach, convert, verify, makehybrid) assembles an argument
vector from typed option values and runs the external binary.  This file is a
shallow embedding of that code:

* the flag combinators of `flag.go` become pure functions on `List String`
  (the repository carries two copies of the combinators whose only difference
  is parameter order; we follow `flag.go`, value first, name second);
* a Go interface value with a single `…Flag() []string` method is represented
  by the token list that method returns;
* the per-verb argument assembly loops become folds over the option list;
* process execution is represented by a `ProcOutcome` value describing the
  external process behaviour (start failure, or exit status together with the
  text the process produced), and each verb maps that outcome to its Go
  result exactly as the source does;
* `strings.Replace`, `strings.TrimPrefix`, `strconv.Atoi` and the regexp
  `/dev/disk[\d]+` search are modelled character-exactly on `List Char`.
-/

namespace Hdiutil

/- ### flag.go: the option-encoding combinators -/

/-- Go `boolFlag` from flag.go: emit `-name` iff the bool is true. -/
def boolFlag (b : Bool) (name : String) : List String :=
  if b then ["-" ++ name] else []

/-- Go `boolNoFlag` from flag.go: emit `-name` if true, `-noname` if false. -/
def boolNoFlag (b : Bool) (name : String) : List String :=
  if b then ["-" ++ name] else ["-no" ++ name]

/-- Go `stringFlag` from flag.go: emit `-name value` as two tokens. -/
def stringFlag (s : String) (name : String) : List String :=
  ["-" ++ name, s]

/-- Go `stringSliceFlag` from flag.go: emit `-name` followed by each element. -/
def stringSliceFlag (s : List String) (name : String) : List String :=
  ("-" ++ name) :: s

/-- Go `intFlag` from flag.go: emit `-name` followed by `strconv.Itoa` of the
payload.  Go's `strconv.Itoa` prints a decimal with a leading `-` for
negatives, which is exactly `Int.repr`. -/
def intFlag (s : Int) (name : String) : List String :=
  ["-" ++ name, s.repr]

/- ### Character-exact models of the Go string primitives -/

/-- Go `strings.HasPrefix` on character lists (used by `TrimPrefix`). -/
def hasPref (p s : List Char) : Bool := p.isPrefixOf s

/-- Go `strings.TrimPrefix`: drop `p` from the front of `s` when present,
otherwise return `s` unchanged. -/
def trimPref (p : String) (s : String) : String :=
  if hasPref p.data s.data then ⟨s.data.drop p.length⟩ else s

/-- Go `strings.Replace(s, old, new, 1)`: replace the first (leftmost)
occurrence of `old` in `s` with `new`; if `old` does not occur, `s` is
returned unchanged. -/
def replaceFirst : List Char → List Char → List Char → List Char
  | [], old, new => if old.isEmpty then new else []
  | c :: rest, old, new =>
    if old.isPrefixOf (c :: rest) then new ++ (c :: rest).drop old.length
    else c :: replaceFirst rest old new

/-- Does the pattern `pat` occur as a contiguous run anywhere in `s`? -/
def occursIn (pat : List Char) : List Char → Bool
  | [] => pat.isEmpty
  | c :: rest => pat.isPrefixOf (c :: rest) || occursIn pat rest

/-- Decimal value of one ASCII digit character. -/
def digitVal (c : Char) : Nat := c.toNat - '0'.toNat

/-- The digit-accumulation loop of `strconv.Atoi`: fold the characters into
an accumulator, failing on the first non-digit. -/
def parseDigitsAux : List Char → Nat → Option Nat
  | [], n => some n
  | c :: rest, n =>
    if c.isDigit then parseDigitsAux rest (n * 10 + digitVal c) else none

/-- The unsigned part of `strconv.Atoi` after the sign has been stripped:
one or more ASCII digits whose value, with the sign applied, fits the 64-bit
`int` range; anything else is an error (`none`). -/
def goAtoiMag (neg : Bool) (ds : List Char) : Option Int :=
  if ds.isEmpty then none
  else
    match parseDigitsAux ds 0 with
    | none => none
    | some n =>
      if neg then
        if n ≤ 2 ^ 63 then some (-(n : Int)) else none
      else
        if n ≤ 2 ^ 63 - 1 then some (n : Int) else none

/-- Go `strconv.Atoi` (base 10, 64-bit `int`): an optional `+`/`-` sign, then
one or more ASCII digits, value within the `int64` range; any other input is
an error (`none`). -/
def goAtoi (s : String) : Option Int :=
  match s.data with
  | [] => none
  | c :: rest =>
    if c = '-' then goAtoiMag true rest
    else if c = '+' then goAtoiMag false rest
    else goAtoiMag false (c :: rest)

/- ### hdiutil.go: derived device-node attributes -/

/-- Go `RawDeviceNode` from hdiutil.go:
`strings.Replace(deviceNode, "disk", "rdisk", 1)`. -/
def RawDeviceNode (deviceNode : String) : String :=
  ⟨replaceFirst deviceNode.data "disk".data "rdisk".data⟩

/-- Go `DeviceNumber` from hdiutil.go:
`strconv.Atoi(strings.TrimPrefix(deviceNode, "/dev/disk"))`, with `0`
returned whenever `Atoi` reports an error. -/
def DeviceNumber (deviceNode : String) : Int :=
  match goAtoi (trimPref "/dev/disk" deviceNode) with
  | none => 0
  | some n => n

/- ### Process execution model

A Go interface value whose one method returns the flag's token list is
represented by that token list, so every verb takes its variadic options as
`List (List String)` (for `verify`, whose closed option set claim C10 is
about, a dedicated sum type is used instead).  The behaviour of the external
`hdiutil` process is a `ProcOutcome`: either the binary could not be started
(`exec.Cmd` start error, carrying that error's message), or the process ran
to completion with an exit status and its combined stdout+stderr text. -/

inductive ProcOutcome where
  | failedToStart (msg : String)
  | started (exitCode : Nat) (output : String)
deriving DecidableEq

/-- Go `(*exec.ExitError).Error()` for a process that exited with a non-zero
status: the string `exit status N`. -/
def exitStatusMsg (e : Nat) : String := "exit status " ++ Nat.repr e

/- ### Per-verb argument assembly (the vector after the executable path)

Each Go verb builds `cmd.Args = [hdiutilPath, verb, …]` and then appends
every option's tokens in a loop.  The functions below give the vector after
the executable path. -/

/-- Argument vector of `Attach` (attach.go): `attach`, the image, then each
option's tokens appended in caller order. -/
def attachArgs (image : String) (flags : List (List String)) : List String :=
  let args := ["attach", image]
  if flags.isEmpty then args else flags.foldl (fun a f => a ++ f) args

/-- Argument vector of `Detach` (detach.go): `detach`, the device node, then
each option's tokens appended in caller order. -/
def detachArgs (deviceNode : String) (flags : List (List String)) : List String :=
  let args := ["detach", deviceNode]
  if flags.isEmpty then args else flags.foldl (fun a f => a ++ f) args

/-- Argument vector of `Create` (create.go): `create`, then the size-spec
argument's tokens, then the image name, then each option's tokens in caller
order. -/
def createArgs (image : String) (sizeSpec : List String)
    (flags : List (List String)) : List String :=
  let args := ("create" :: sizeSpec) ++ [image]
  if flags.isEmpty then args else flags.foldl (fun a f => a ++ f) args

/-- Argument vector of `Convert` (convert.go): `convert`, the input image,
then the format argument's tokens, then the output file, then each option's
tokens in caller order. -/
def convertArgs (image : String) (format : List String) (outfile : String)
    (flags : List (List String)) : List String :=
  let args := ("convert" :: image :: format) ++ [outfile]
  if flags.isEmpty then args else flags.foldl (fun a f => a ++ f) args

/-- Argument vector of `Makehybrid` (makehybrid.go): `makehybrid`, the image,
the source, then each option's tokens in caller order. -/
def makehybridArgs (image source : String)
    (flags : List (List String)) : List String :=
  let args := ["makehybrid", image, source]
  if flags.isEmpty then args else flags.foldl (fun a f => a ++ f) args

/- ### attach.go: result extraction -/

/-- The literal characters of the regexp's fixed part `/dev/disk`. -/
def devDiskPat : List Char := "/dev/disk".data

/-- Go `attachRe.Find` for `attachRe = /dev/disk[\d]+`: scan left to right; at
the first position where `/dev/disk` is followed by at least one ASCII
digit, return `/dev/disk` plus the maximal digit run; `none` when no
position matches. -/
def attachFind : List Char → Option (List Char)
  | [] => none
  | c :: rest =>
    let ds := ((c :: rest).drop devDiskPat.length).takeWhile Char.isDigit
    if devDiskPat.isPrefixOf (c :: rest) && !ds.isEmpty then
      some (devDiskPat ++ ds)
    else attachFind rest

/-- Go `Attach` (attach.go): run `hdiutil attach` and return the device node.
On a start failure or non-zero exit, `fmt.Errorf("%v: %s", err, out)` is
returned; on success the first `/dev/disk<digits>` substring of the combined
output (empty string when there is none, since `string(nil)` is `""`). -/
def Attach (image : String) (flags : List (List String))
    (proc : ProcOutcome) : Except String String :=
  match proc with
  | .failedToStart msg => .error (msg ++ ": ")
  | .started e out =>
    if e = 0 then .ok ⟨(attachFind out.data).getD []⟩
    else .error (exitStatusMsg e ++ ": " ++ out)

/-- Go `Detach` (detach.go): run `hdiutil detach` via `cmd.Run()` and return
its error unchanged; `Run` captures no process output, so a non-zero exit
surfaces only as the exit-status error. -/
def Detach (deviceNode : String) (flags : List (List String))
    (proc : ProcOutcome) : Except String Unit :=
  match proc with
  | .failedToStart msg => .error msg
  | .started e _ => if e = 0 then .ok () else .error (exitStatusMsg e)

/-- Go `Create` (create.go): run `hdiutil create` via `cmd.Run()` and return
its error unchanged, exactly like `Detach`: no process output is captured. -/
def Create (image : String) (sizeSpec : List String)
    (flags : List (List String)) (proc : ProcOutcome) : Except String Unit :=
  match proc with
  | .failedToStart msg => .error msg
  | .started e _ => if e = 0 then .ok () else .error (exitStatusMsg e)

/-- Go `Convert` (convert.go): run `hdiutil convert` via `cmd.Run()` and
return its error unchanged: no process output is captured. -/
def Convert (image : String) (format : List String) (outfile : String)
    (flags : List (List String)) (proc : ProcOutcome) : Except String Unit :=
  match proc with
  | .failedToStart msg => .error msg
  | .started e _ => if e = 0 then .ok () else .error (exitStatusMsg e)

/-- Go `Makehybrid` (makehybrid.go): run `hdiutil makehybrid` via
`cmd.Run()` and return its error unchanged: no process output is captured. -/
def Makehybrid (image source : String) (flags : List (List String))
    (proc : ProcOutcome) : Except String Unit :=
  match proc with
  | .failedToStart msg => .error msg
  | .started e _ => if e = 0 then .ok () else .error (exitStatusMsg e)

/- ### create.go: the option types claim C1 uses -/

/-- Go `CreateUDIF` (create.go, `1 << iota` enumeration). -/
def CreateUDIF : Int := 1

/-- Go `CreateSPARSE` (create.go). -/
def CreateSPARSE : Int := 2

/-- Go `CreateSPARSEBUNDLE` (create.go). -/
def CreateSPARSEBUNDLE : Int := 4

/-- Go `createType.String()` from create.go: display name of the image type,
empty for a value outside the enumeration. -/
def createTypeString (c : Int) : String :=
  if c = CreateUDIF then "UDIF"
  else if c = CreateSPARSE then "SPARSE"
  else if c = CreateSPARSEBUNDLE then "SPARSEBUNDLE"
  else ""

/-- Go `createType.createFlag()` from create.go: `-type <display name>`. -/
def createTypeFlag (c : Int) : List String :=
  stringFlag (createTypeString c) "type"

/-- Go `CreateHFSPlus` (create.go, `1 << iota` enumeration). -/
def CreateHFSPlus : Int := 1

/-- Go `CreateHFSPlusJ` (create.go). -/
def CreateHFSPlusJ : Int := 2

/-- Go `CreateJHFSPlus` (create.go). -/
def CreateJHFSPlus : Int := 4

/-- Go `CreateHFSX` (create.go). -/
def CreateHFSX : Int := 8

/-- Go `CreateJHFSPlusX` (create.go). -/
def CreateJHFSPlusX : Int := 16

/-- Go `CreateAPFS` (create.go). -/
def CreateAPFS : Int := 32

/-- Go `CreateFAT32` (create.go). -/
def CreateFAT32 : Int := 64

/-- Go `CreateExFAT` (create.go). -/
def CreateExFAT : Int := 128

/-- Go `CreateUDF` (create.go). -/
def CreateUDF : Int := 256

/-- Go `createFS.String()` from create.go: display name of the filesystem,
empty for a value outside the enumeration. -/
def createFSString (c : Int) : String :=
  if c = CreateHFSPlus then "HFS+"
  else if c = CreateHFSPlusJ then "HFS+J"
  else if c = CreateJHFSPlus then "JHFS+"
  else if c = CreateHFSX then "HFSX"
  else if c = CreateJHFSPlusX then "JHFS+X"
  else if c = CreateAPFS then "APFS"
  else if c = CreateFAT32 then "FAT32"
  else if c = CreateExFAT then "ExFAT"
  else if c = CreateUDF then "UDF"
  else ""

/-- Go `createFS.createFlag()` from create.go: `-fs <display name>`. -/
def createFSFlag (c : Int) : List String :=
  stringFlag (createFSString c) "fs"

/-- Go `CreateMegabytes.sizeFlag()` from create.go: `-megabytes <n>`. -/
def CreateMegabytes (n : Int) : List String :=
  intFlag n "megabytes"

/- ### attach.go: the AttachSection option (claim C9) -/

/-- Go `AttachSection.attachFlag()` from attach.go.  The receiver is a `[2]int`
and the Go loop is `for v := range s`, which iterates over the array's
indices `0` and `1` (not its stored values); each index is rendered with
`strconv.Itoa` and concatenated into the flag's value. -/
def attachSectionFlag (s : Int × Int) : List String :=
  let arg := (List.range 2).foldl (fun acc v => acc ++ Nat.repr v) ""
  stringFlag arg "section"

/- ### verify.go: verbs and options (claim C10) -/

/-- Go `AES128` (hdiutil.go, `1 << iota` enumeration). -/
def AES128 : Int := 1

/-- Go `AES256` (hdiutil.go). -/
def AES256 : Int := 2

/-- Go `EncryptionType.String()` from hdiutil.go: `AES-128`, `AES-256`, or the
`fmt.Sprintf("EncryptionType(%d)", e)` fallback. -/
def encryptionTypeString (e : Int) : String :=
  if e = AES128 then "AES-128"
  else if e = AES256 then "AES-256"
  else "EncryptionType(" ++ e.repr ++ ")"

/-- Go `verifyCache.verifyFlag()` from verify.go: `boolFlag(bool(v), "force")` —
the external flag name is `force`, not `cache`. -/
def verifyCacheFlag (v : Bool) : List String := boolFlag v "force"

/-- Go `VerifyCache` constant from verify.go (`verifyCache = true`). -/
def VerifyCache : Bool := true

/-- Go `VerifyNoCache` constant from verify.go (`verifyCache = false`). -/
def VerifyNoCache : Bool := false

/-- The closed set of types implementing the `verifyFlag` interface:
`verifyCache` (verify.go) and `EncryptionType`, `plist`, `puppetstrings`,
`stdinpass` (hdiutil.go). -/
inductive VerifyFlag where
  | cache (v : Bool)
  | encryption (e : Int)
  | plist (b : Bool)
  | puppetstrings (b : Bool)
  | stdinpass (b : Bool)
deriving DecidableEq

/-- The `verifyFlag()` method of each implementor. -/
def verifyFlagTokens : VerifyFlag → List String
  | .cache v => verifyCacheFlag v
  | .encryption e => stringFlag (encryptionTypeString e) "encryption"
  | .plist b => boolFlag b "plist"
  | .puppetstrings b => boolFlag b "puppetstrings"
  | .stdinpass b => boolFlag b "stdinpass"

/-- Argument vector of `Verify` (verify.go): `verify`, the image, then each
option's tokens appended in caller order. -/
def verifyArgs (img : String) (flags : List VerifyFlag) : List String :=
  let args := ["verify", img]
  if flags.isEmpty then args
  else flags.foldl (fun a f => a ++ verifyFlagTokens f) args

/-- Go `Verify` (verify.go): run `hdiutil verify` via `cmd.Run()` and return
its error unchanged, exactly like `Detach`: no process output is captured. -/
def Verify (img : String) (flags : List VerifyFlag)
    (proc : ProcOutcome) : Except String Unit :=
  match proc with
  | .failedToStart msg => .error msg
  | .started e _ => if e = 0 then .ok () else .error (exitStatusMsg e)

/- ### Spec-side definitions used to state the claims -/

/-- Decimal value of a digit string, most significant digit first (the
specification's reading of the device-number suffix). -/
def digitsToNat (ds : List Char) : Nat :=
  ds.foldl (fun n c => n * 10 + digitVal c) 0

/-- Does the regexp `/dev/disk[\d]+` match at position `i` of `s`? (`s` has
`/dev/disk` at offset `i`, followed by at least one ASCII digit.) -/
def devMatchAt (s : List Char) (i : Nat) : Bool :=
  devDiskPat.isPrefixOf (s.drop i) &&
    !(((s.drop i).drop devDiskPat.length).takeWhile Char.isDigit).isEmpty

/- ### Helper lemmas -/

theorem foldl_append_eq {α : Type} (g : α → List String) (l : List α)
    (args : List String) :
    l.foldl (fun a f => a ++ g f) args = args ++ (l.map g).flatten := by
  induction l generalizing args with
  | nil => simp
  | cons h t ih => simp [List.foldl, ih]

theorem guarded_fold_eq {α : Type} (g : α → List String) (l : List α)
    (args : List String) :
    (if l.isEmpty then args else l.foldl (fun a f => a ++ g f) args) =
      args ++ (l.map g).flatten := by
  cases l with
  | nil => simp
  | cons h t => simpa using foldl_append_eq g (h :: t) args

theorem isPrefixOf_append_self {α : Type} [DecidableEq α] (l t : List α) :
    l.isPrefixOf (l ++ t) = true := by
  simp [List.isPrefixOf_iff_prefix]

theorem replaceFirst_of_not_occurs (s old new : List Char)
    (h : occursIn old s = false) : replaceFirst s old new = s := by
  induction s with
  | nil =>
    simp only [occursIn] at h
    simp [replaceFirst, h]
  | cons c rest ih =>
    simp only [occursIn, Bool.or_eq_false_iff] at h
    simp [replaceFirst, h.1, ih h.2]

theorem replaceFirst_append_self (old b new : List Char) :
    replaceFirst (old ++ b) old new = new ++ b := by
  cases old with
  | nil => cases b <;> simp [replaceFirst, List.isPrefixOf]
  | cons o os =>
    have hpre := isPrefixOf_append_self (o :: os) b
    have hdrop := List.drop_left (o :: os) b
    simp only [List.cons_append] at hpre hdrop ⊢
    simp [replaceFirst, hpre, hdrop]

theorem replaceFirst_first_occurrence (a old b new : List Char)
    (hfirst : ∀ i < a.length,
      old.isPrefixOf ((a ++ old ++ b).drop i) = false) :
    replaceFirst (a ++ old ++ b) old new = a ++ new ++ b := by
  induction a with
  | nil => simpa using replaceFirst_append_self old b new
  | cons c a' ih =>
    have h0 : old.isPrefixOf (c :: (a' ++ (old ++ b))) = false := by
      have := hfirst 0 (by simp)
      simpa [List.append_assoc] using this
    have hrec : replaceFirst (a' ++ (old ++ b)) old new = a' ++ (new ++ b) := by
      have := ih (fun i hi => by
        have := hfirst (i + 1) (by simpa using Nat.succ_lt_succ hi)
        simpa [List.drop_succ_cons] using this)
      simpa [List.append_assoc] using this
    simp [replaceFirst, h0, hrec, List.append_assoc]

theorem parseDigitsAux_all_digits (ds : List Char)
    (h : ∀ c ∈ ds, c.isDigit = true) :
    ∀ n : Nat, parseDigitsAux ds n =
      some (ds.foldl (fun m c => m * 10 + digitVal c) n) := by
  induction ds with
  | nil => intro n; simp [parseDigitsAux]
  | cons c t ih =>
    intro n
    have hc : c.isDigit = true := h c (by simp)
    have ht : ∀ x ∈ t, x.isDigit = true := fun x hx => h x (by simp [hx])
    simp [parseDigitsAux, hc, ih ht]

theorem goAtoiMag_pos (ds : List Char) (hne : ds ≠ [])
    (hd : ∀ c ∈ ds, c.isDigit = true) (hr : digitsToNat ds ≤ 2 ^ 63 - 1) :
    goAtoiMag false ds = some ((digitsToNat ds : Int)) := by
  have hpe : ds.isEmpty = false := by
    cases ds with
    | nil => exact absurd rfl hne
    | cons c t => rfl
  have hp : parseDigitsAux ds 0 = some (digitsToNat ds) :=
    parseDigitsAux_all_digits ds hd 0
  have hr2 : digitsToNat ds ≤ 9223372036854775807 := by simpa using hr
  simp [goAtoiMag, hpe, hp, hr2]

theorem goAtoiMag_neg (ds : List Char) (hne : ds ≠ [])
    (hd : ∀ c ∈ ds, c.isDigit = true) (hr : digitsToNat ds ≤ 2 ^ 63) :
    goAtoiMag true ds = some (-(digitsToNat ds : Int)) := by
  have hpe : ds.isEmpty = false := by
    cases ds with
    | nil => exact absurd rfl hne
    | cons c t => rfl
  have hp : parseDigitsAux ds 0 = some (digitsToNat ds) :=
    parseDigitsAux_all_digits ds hd 0
  have hr2 : digitsToNat ds ≤ 9223372036854775808 := by simpa using hr
  simp [goAtoiMag, hpe, hp, hr2]

theorem isDigit_ne_dash {c : Char} (h : c.isDigit = true) : ¬ c = '-' := by
  intro he
  subst he
  exact absurd h (by decide)

theorem isDigit_ne_plus {c : Char} (h : c.isDigit = true) : ¬ c = '+' := by
  intro he
  subst he
  exact absurd h (by decide)

theorem goAtoi_all_digits (ds : List Char) (hne : ds ≠ [])
    (hd : ∀ c ∈ ds, c.isDigit = true) (hr : digitsToNat ds ≤ 2 ^ 63 - 1) :
    goAtoi ⟨ds⟩ = some ((digitsToNat ds : Int)) := by
  cases ds with
  | nil => exact absurd rfl hne
  | cons c t =>
    have hc : c.isDigit = true := hd c (by simp)
    show goAtoi ⟨c :: t⟩ = _
    simp only [goAtoi, isDigit_ne_dash hc, isDigit_ne_plus hc, if_false]
    exact goAtoiMag_pos (c :: t) hne hd hr

theorem goAtoi_neg_digits (ds : List Char) (hne : ds ≠ [])
    (hd : ∀ c ∈ ds, c.isDigit = true) (hr : digitsToNat ds ≤ 2 ^ 63) :
    goAtoi ⟨'-' :: ds⟩ = some (-(digitsToNat ds : Int)) := by
  simp only [goAtoi, if_pos rfl]
  exact goAtoiMag_neg ds hne hd hr

theorem trimPref_strips (p : String) (rest : List Char) :
    trimPref p ⟨p.data ++ rest⟩ = ⟨rest⟩ := by
  have hpre : hasPref p.data (p.data ++ rest) = true :=
    isPrefixOf_append_self p.data rest
  have hdrop : (p.data ++ rest).drop p.length = rest :=
    List.drop_left p.data rest
  unfold trimPref
  rw [if_pos hpre]
  exact congrArg String.mk hdrop

theorem encryptionTypeString_head (e : Int) :
    (encryptionTypeString e).data.head? = some 'A' ∨
    (encryptionTypeString e).data.head? = some 'E' := by
  unfold encryptionTypeString
  split
  · exact Or.inl rfl
  · split
    · exact Or.inl rfl
    · right
      have h : ("EncryptionType(" ++ e.repr ++ ")").data =
          "EncryptionType(".data ++ (e.repr.data ++ ")".data) := by
        simp [String.data_append, List.append_assoc]
      rw [h, List.head?_append]
      rfl

theorem verifyFlagTokens_no_cache_token (f : VerifyFlag) :
    "-cache" ∉ verifyFlagTokens f ∧ "-nocache" ∉ verifyFlagTokens f := by
  cases f with
  | cache v => cases v <;> exact ⟨by decide, by decide⟩
  | encryption e =>
    have hhead := encryptionTypeString_head e
    constructor <;>
    · intro hmem
      simp only [verifyFlagTokens, stringFlag, List.mem_cons,
        List.not_mem_nil, or_false, List.mem_singleton] at hmem
      rcases hmem with h | h
      · exact absurd h (by decide)
      · have hh : (encryptionTypeString e).data.head? = some '-' := by
          rw [← h]
          rfl
        rcases hhead with h2 | h2 <;> rw [h2] at hh <;>
          exact absurd hh (by decide)
  | plist b => cases b <;> exact ⟨by decide, by decide⟩
  | puppetstrings b => cases b <;> exact ⟨by decide, by decide⟩
  | stdinpass b => cases b <;> exact ⟨by decide, by decide⟩

theorem occursIn_suffix (pat x : List Char) : occursIn pat (x ++ pat) = true := by
  induction x with
  | nil =>
    cases pat with
    | nil => rfl
    | cons c t => simp [occursIn, List.isPrefixOf_iff_prefix]
  | cons c t ih => simp [occursIn, ih]

theorem devMatchAt_succ_cons (c : Char) (rest : List Char) (i : Nat) :
    devMatchAt (c :: rest) (i + 1) = devMatchAt rest i := by
  simp [devMatchAt, List.drop_succ_cons]

theorem attachFind_cons_eq (c : Char) (rest : List Char) :
    attachFind (c :: rest) =
      if devMatchAt (c :: rest) 0 then
        some (devDiskPat ++
          ((c :: rest).drop devDiskPat.length).takeWhile Char.isDigit)
      else attachFind rest := rfl

theorem takeWhile_append_all (p : Char → Bool) (ds b : List Char)
    (h1 : ∀ c ∈ ds, p c = true)
    (h2 : b.head?.all (fun c => !(p c)) = true) :
    (ds ++ b).takeWhile p = ds := by
  induction ds with
  | nil =>
    cases b with
    | nil => rfl
    | cons c t =>
      have hc : p c = false := by simpa using h2
      simp [List.takeWhile_cons, hc]
  | cons c t ih =>
    simp [List.takeWhile_cons, h1 c (by simp),
      ih (fun x hx => h1 x (by simp [hx]))]

theorem attachFind_no_match (s : List Char)
    (h : ∀ i < s.length, devMatchAt s i = false) : attachFind s = none := by
  induction s with
  | nil => rfl
  | cons c rest ih =>
    rw [attachFind_cons_eq]
    rw [if_neg (by simp [h 0 (by simp)])]
    refine ih ?_
    intro i hi
    have := h (i + 1) (by simpa using Nat.succ_lt_succ hi)
    rwa [devMatchAt_succ_cons] at this

theorem attachFind_first_match (a ds b : List Char) (hne : ds ≠ [])
    (hd : ∀ c ∈ ds, c.isDigit = true)
    (hb : b.head?.all (fun c => !c.isDigit) = true)
    (hfirst : ∀ i < a.length,
      devMatchAt (a ++ (devDiskPat ++ (ds ++ b))) i = false) :
    attachFind (a ++ (devDiskPat ++ (ds ++ b))) = some (devDiskPat ++ ds) := by
  induction a with
  | nil =>
    simp only [List.nil_append]
    have htake : ((devDiskPat ++ (ds ++ b)).drop
        devDiskPat.length).takeWhile Char.isDigit = ds := by
      rw [List.drop_left]
      exact takeWhile_append_all Char.isDigit ds b hd hb
    have hdse : ds.isEmpty = false := by
      cases ds with
      | nil => exact absurd rfl hne
      | cons c t => rfl
    have hm : devMatchAt (devDiskPat ++ (ds ++ b)) 0 = true := by
      unfold devMatchAt
      rw [List.drop_zero, isPrefixOf_append_self, htake, hdse]
      rfl
    have hshape : devDiskPat ++ (ds ++ b) =
        '/' :: ("dev/disk".data ++ (ds ++ b)) := rfl
    rw [hshape, attachFind_cons_eq, ← hshape, if_pos hm, htake]
  | cons c a' ih =>
    simp only [List.cons_append]
    rw [attachFind_cons_eq]
    have h0 : devMatchAt (c :: (a' ++ (devDiskPat ++ (ds ++ b)))) 0 = false := by
      simpa using hfirst 0 (by simp)
    rw [if_neg (by simp [h0])]
    refine ih ?_
    intro i hi
    have := hfirst (i + 1) (by simpa using Nat.succ_lt_succ hi)
    simp only [List.cons_append] at this
    rwa [devMatchAt_succ_cons] at this

/- ### Claim theorems -/

/-- C7: for every plain-boolean option with flag name `n`, encoding `false`
yields the empty token sequence and encoding `true` yields exactly the one
token `-n`. -/
theorem boolFlag_encoding :
    ∀ name : String,
      boolFlag false name = [] ∧ boolFlag true name = ["-" ++ name] := by
  intro name
  exact ⟨rfl, rfl⟩

/-- C6: for every negatable-boolean option with flag name `n`, encoding
`true` yields exactly the token `-n`, encoding `false` yields exactly the
negative-prefixed token `-no` ++ `n`, and the encoding is never empty. -/
theorem boolNoFlag_encoding :
    ∀ name : String,
      boolNoFlag true name = ["-" ++ name] ∧
      boolNoFlag false name = ["-no" ++ name] ∧
      ∀ b : Bool, boolNoFlag b name ≠ [] := by
  intro name
  refine ⟨rfl, rfl, ?_⟩
  intro b
  cases b <;> simp [boolNoFlag]

/-- C6 (witness): the negatable-flag theorem applied to the flag name
`kernel`, giving in particular a non-empty encoding. -/
theorem boolNoFlag_witness :
    boolNoFlag true "kernel" = ["-kernel"] ∧
    boolNoFlag false "kernel" = ["-nokernel"] ∧
    boolNoFlag false "kernel" ≠ [] :=
  ⟨(boolNoFlag_encoding "kernel").1, (boolNoFlag_encoding "kernel").2.1,
    (boolNoFlag_encoding "kernel").2.2 false⟩

/-- C9: the `AttachSection` option's encoding ignores its payload: the Go
loop ranges over the array's indices, so every payload encodes to the same
two tokens `-section 01`, in which the stored sector values never appear. -/
theorem attachSectionFlag_constant :
    ∀ s1 s2 : Int × Int,
      attachSectionFlag s1 = attachSectionFlag s2 ∧
      attachSectionFlag s1 = ["-section", "01"] := by
  intro s1 s2
  exact ⟨rfl, rfl⟩

/-- C1 (counterexample): building the Create command for a 20-megabyte HFS+
sparse-bundle image named `test` yields
`create -megabytes 20 test -fs HFS+ -type SPARSEBUNDLE` — the image name is
inserted before the option tokens, so the vector differs from the spec's
expected `create -megabytes 20 -fs HFS+ -type SPARSEBUNDLE test`. -/
theorem create_scenario_image_not_last :
    createArgs "test" (CreateMegabytes 20)
        [createFSFlag CreateHFSPlus, createTypeFlag CreateSPARSEBUNDLE] =
      ["create", "-megabytes", "20", "test", "-fs", "HFS+",
        "-type", "SPARSEBUNDLE"] ∧
    createArgs "test" (CreateMegabytes 20)
        [createFSFlag CreateHFSPlus, createTypeFlag CreateSPARSEBUNDLE] ≠
      ["create", "-megabytes", "20", "-fs", "HFS+",
        "-type", "SPARSEBUNDLE", "test"] := by
  exact ⟨by decide, by decide⟩

/-- C1 (amended): the Create vector for the 20-megabyte HFS+ sparse-bundle
scenario is exactly `create -megabytes 20 test -fs HFS+ -type SPARSEBUNDLE`:
verb, then the size-spec tokens, then the positional image name, then the
options in caller order. -/
theorem create_scenario_vector :
    createArgs "test" (CreateMegabytes 20)
        [createFSFlag CreateHFSPlus, createTypeFlag CreateSPARSEBUNDLE] =
      ["create", "-megabytes", "20", "test", "-fs", "HFS+",
        "-type", "SPARSEBUNDLE"] := by
  decide

/-- C2 (counterexample): Convert places the format option's tokens between
the two positional arguments (input image and output file), so the vector is
not `verb, positionals, options`: with image `a.dmg`, a format encoding to
`-format UDZO`, outfile `out.dmg` and no further options, the assembled
vector interleaves the option tokens before the final positional. -/
theorem convert_interleaves_format_tokens :
    convertArgs "a.dmg" ["-format", "UDZO"] "out.dmg" [] =
      ["convert", "a.dmg", "-format", "UDZO", "out.dmg"] ∧
    convertArgs "a.dmg" ["-format", "UDZO"] "out.dmg" [] ≠
      ["convert", "a.dmg", "out.dmg", "-format", "UDZO"] := by
  exact ⟨by decide, by decide⟩

/-- C2 (amended): for Attach, Detach, Verify and Makehybrid the assembled
vector is the verb token, the positional values, then each option's encoded
tokens concatenated in caller order; Create however places the size-spec
argument's tokens before the positional image name, and Convert places the
format argument's tokens between the positionals image and outfile. -/
theorem argument_vector_shapes :
    (∀ (image : String) (flags : List (List String)),
        attachArgs image flags = ["attach", image] ++ flags.flatten) ∧
    (∀ (deviceNode : String) (flags : List (List String)),
        detachArgs deviceNode flags = ["detach", deviceNode] ++ flags.flatten) ∧
    (∀ (img : String) (flags : List VerifyFlag),
        verifyArgs img flags =
          ["verify", img] ++ (flags.map verifyFlagTokens).flatten) ∧
    (∀ (image source : String) (flags : List (List String)),
        makehybridArgs image source flags =
          ["makehybrid", image, source] ++ flags.flatten) ∧
    (∀ (image : String) (sizeSpec : List String) (flags : List (List String)),
        createArgs image sizeSpec flags =
          ["create"] ++ sizeSpec ++ [image] ++ flags.flatten) ∧
    (∀ (image : String) (format : List String) (outfile : String)
        (flags : List (List String)),
        convertArgs image format outfile flags =
          ["convert", image] ++ format ++ [outfile] ++ flags.flatten) := by
  refine ⟨?_, ?_, ?_, ?_, ?_, ?_⟩
  · intro image flags
    simpa [attachArgs] using guarded_fold_eq id flags ["attach", image]
  · intro deviceNode flags
    simpa [detachArgs] using guarded_fold_eq id flags ["detach", deviceNode]
  · intro img flags
    simpa [verifyArgs] using guarded_fold_eq verifyFlagTokens flags ["verify", img]
  · intro image source flags
    simpa [makehybridArgs] using guarded_fold_eq id flags ["makehybrid", image, source]
  · intro image sizeSpec flags
    simpa [createArgs] using
      guarded_fold_eq id flags (("create" :: sizeSpec) ++ [image])
  · intro image format outfile flags
    simpa [convertArgs] using
      guarded_fold_eq id flags (("convert" :: image :: format) ++ [outfile])

/-- C3: a successful `Attach` returns the first (leftmost) substring of the
captured output matching `/dev/disk` followed by one or more decimal digits,
returns the empty string (not an error) when no such substring exists, and
on the sample output extracts exactly `/dev/disk4`. -/
theorem attach_extracts_first_device_node :
    (∀ (image : String) (flags : List (List String)) (a ds b : List Char),
        ds ≠ [] → (∀ c ∈ ds, c.isDigit = true) →
        b.head?.all (fun c => !c.isDigit) = true →
        (∀ i < a.length,
          devMatchAt (a ++ (devDiskPat ++ (ds ++ b))) i = false) →
        Attach image flags (.started 0 ⟨a ++ (devDiskPat ++ (ds ++ b))⟩) =
          .ok ⟨devDiskPat ++ ds⟩) ∧
    (∀ (image : String) (flags : List (List String)) (out : String),
        (∀ i < out.data.length, devMatchAt out.data i = false) →
        Attach image flags (.started 0 out) = .ok "") ∧
    Attach "test.sparsebundle" []
        (.started 0 "/dev/disk4\n/dev/disk4s1  Apple_HFS  /Volumes/test\n") =
      .ok "/dev/disk4" := by
  refine ⟨?_, ?_, by rfl⟩
  · intro image flags a ds b hne hd hb hfirst
    have hf := attachFind_first_match a ds b hne hd hb hfirst
    simp [Attach, hf]
  · intro image flags out h
    have hf := attachFind_no_match out.data h
    simp [Attach, hf]

/-- C3 (witness): the extraction theorem applied to a concrete output with a
device node in the middle, and to a concrete output with no device node. -/
theorem attach_extraction_witness :
    Attach "img" [] (.started 0 ⟨"x ".data ++ (devDiskPat ++ (['7'] ++ "s1".data))⟩) =
      .ok ⟨devDiskPat ++ ['7']⟩ ∧
    Attach "img" [] (.started 0 "no device output") = .ok "" :=
  ⟨attach_extracts_first_device_node.1 "img" [] "x ".data ['7'] "s1".data
      (by decide) (by decide) (by decide) (by decide),
    attach_extracts_first_device_node.2.1 "img" [] "no device output"
      (by decide)⟩

/-- C4 (amended): `DeviceNumber` strips the prefix `/dev/disk` when present
and parses the remainder with Go's `strconv.Atoi`, which accepts an optional
sign, so an all-digit remainder yields its decimal value, a `-`-signed digit
remainder yields the negated value (not the sentinel), and any remainder
`Atoi` rejects yields the sentinel `0`; in particular
`DeviceNumber "/dev/disk12" = 12` and `DeviceNumber "not-a-device" = 0`. -/
theorem device_number_parsing :
    (∀ ds : List Char, ds ≠ [] → (∀ c ∈ ds, c.isDigit = true) →
        digitsToNat ds ≤ 2 ^ 63 - 1 →
        DeviceNumber ⟨"/dev/disk".data ++ ds⟩ = (digitsToNat ds : Int) ∧
        DeviceNumber ⟨"/dev/disk".data ++ ('-' :: ds)⟩ =
          -(digitsToNat ds : Int)) ∧
    DeviceNumber "/dev/disk12" = 12 ∧
    DeviceNumber "not-a-device" = 0 ∧
    (∀ s : String, goAtoi (trimPref "/dev/disk" s) = none →
        DeviceNumber s = 0) := by
  refine ⟨?_, by decide, by decide, ?_⟩
  · intro ds hne hd hr
    constructor
    · have ht := trimPref_strips "/dev/disk" ds
      have hg := goAtoi_all_digits ds hne hd hr
      unfold DeviceNumber
      rw [ht, hg]
    · have ht := trimPref_strips "/dev/disk" ('-' :: ds)
      have hg := goAtoi_neg_digits ds hne hd (le_trans hr (by norm_num))
      unfold DeviceNumber
      rw [ht, hg]
  · intro s h
    unfold DeviceNumber
    rw [h]

/-- C4 (counterexample): `/dev/disk-5` has a remainder that is not a
non-negative integer, yet `DeviceNumber` returns `-5`, not the sentinel `0`
the claim requires for every non-non-negative remainder. -/
theorem device_number_signed_counterexample :
    DeviceNumber "/dev/disk-5" = -5 ∧ DeviceNumber "/dev/disk-5" ≠ 0 :=
  ⟨by decide, by decide⟩

/-- C4 (witness): the parsing theorem applied to the digit string `12`. -/
theorem device_number_witness :
    DeviceNumber ⟨"/dev/disk".data ++ ['1', '2']⟩ =
      (digitsToNat ['1', '2'] : Int) ∧
    DeviceNumber ⟨"/dev/disk".data ++ ('-' :: ['1', '2'])⟩ =
      -(digitsToNat ['1', '2'] : Int) :=
  device_number_parsing.1 ['1', '2'] (by decide) (by decide) (by decide)

/-- C5: `RawDeviceNode` substitutes exactly the first occurrence of `disk`
with `rdisk` and changes nothing else: if `disk` first occurs after a prefix
`a`, the result is `a` ++ `rdisk` ++ rest; if `disk` does not occur at all
the input is returned unchanged; and `/dev/disk3` maps to `/dev/rdisk3`. -/
theorem raw_device_node_first_substitution :
    (∀ a b : List Char,
        (∀ i < a.length,
          "disk".data.isPrefixOf ((a ++ "disk".data ++ b).drop i) = false) →
        RawDeviceNode ⟨a ++ "disk".data ++ b⟩ = ⟨a ++ "rdisk".data ++ b⟩) ∧
    (∀ s : String, occursIn "disk".data s.data = false →
        RawDeviceNode s = s) ∧
    RawDeviceNode "/dev/disk3" = "/dev/rdisk3" := by
  refine ⟨?_, ?_, by decide⟩
  · intro a b hfirst
    exact congrArg String.mk
      (replaceFirst_first_occurrence a "disk".data b "rdisk".data hfirst)
  · intro s h
    exact congrArg String.mk
      (replaceFirst_of_not_occurs s.data "disk".data "rdisk".data h)

/-- C5 (witness): the substitution theorem applied to `/dev/` ++ `disk` ++
`3` and to a string in which `disk` does not occur. -/
theorem raw_device_node_witness :
    RawDeviceNode ⟨"/dev/".data ++ "disk".data ++ "3".data⟩ =
      ⟨"/dev/".data ++ "rdisk".data ++ "3".data⟩ ∧
    RawDeviceNode "no-match-here" = "no-match-here" :=
  ⟨raw_device_node_first_substitution.1 "/dev/".data "3".data (by decide),
    raw_device_node_first_substitution.2.1 "no-match-here" (by decide)⟩

/-- C8 (amended): every operation (Attach, Detach, Create, Convert, Verify,
Makehybrid) succeeds exactly when the external process starts and exits with
status zero; on a non-zero exit, `Attach` attaches the process's captured
combined output to the returned failure, but Detach, Create, Convert, Verify
and Makehybrid (built on `cmd.Run()`, which captures nothing) return only
the bare exit-status error without the process's error text. -/
theorem operations_success_iff_zero_exit :
    (∀ (image : String) (flags : List (List String)) (proc : ProcOutcome),
        (Attach image flags proc).isOk = true ↔
          ∃ out, proc = .started 0 out) ∧
    (∀ (dev : String) (flags : List (List String)) (proc : ProcOutcome),
        (Detach dev flags proc).isOk = true ↔
          ∃ out, proc = .started 0 out) ∧
    (∀ (image : String) (flags : List (List String)) (e : Nat) (out : String),
        e ≠ 0 →
        Attach image flags (.started e out) =
            .error (exitStatusMsg e ++ ": " ++ out) ∧
        occursIn out.data (exitStatusMsg e ++ ": " ++ out).data = true) ∧
    (∀ (dev : String) (flags : List (List String)) (e : Nat) (out : String),
        e ≠ 0 → Detach dev flags (.started e out) = .error (exitStatusMsg e)) ∧
    (∀ (image : String) (sizeSpec : List String) (flags : List (List String))
        (proc : ProcOutcome),
        (Create image sizeSpec flags proc).isOk = true ↔
          ∃ out, proc = .started 0 out) ∧
    (∀ (image : String) (format : List String) (outfile : String)
        (flags : List (List String)) (proc : ProcOutcome),
        (Convert image format outfile flags proc).isOk = true ↔
          ∃ out, proc = .started 0 out) ∧
    (∀ (img : String) (flags : List VerifyFlag) (proc : ProcOutcome),
        (Verify img flags proc).isOk = true ↔
          ∃ out, proc = .started 0 out) ∧
    (∀ (image source : String) (flags : List (List String))
        (proc : ProcOutcome),
        (Makehybrid image source flags proc).isOk = true ↔
          ∃ out, proc = .started 0 out) ∧
    (∀ (image : String) (sizeSpec : List String) (flags : List (List String))
        (e : Nat) (out : String),
        e ≠ 0 →
        Create image sizeSpec flags (.started e out) =
          .error (exitStatusMsg e)) ∧
    (∀ (image : String) (format : List String) (outfile : String)
        (flags : List (List String)) (e : Nat) (out : String),
        e ≠ 0 →
        Convert image format outfile flags (.started e out) =
          .error (exitStatusMsg e)) ∧
    (∀ (img : String) (flags : List VerifyFlag) (e : Nat) (out : String),
        e ≠ 0 →
        Verify img flags (.started e out) = .error (exitStatusMsg e)) ∧
    (∀ (image source : String) (flags : List (List String)) (e : Nat)
        (out : String),
        e ≠ 0 →
        Makehybrid image source flags (.started e out) =
          .error (exitStatusMsg e)) := by
  refine ⟨?_, ?_, ?_, ?_, ?_, ?_, ?_, ?_, ?_, ?_, ?_, ?_⟩
  · intro image flags proc
    cases proc with
    | failedToStart msg => simp [Attach, Except.isOk, Except.toBool]
    | started e out =>
      by_cases he : e = 0
      · subst he
        simp [Attach, Except.isOk, Except.toBool]
      · simp [Attach, he, Except.isOk, Except.toBool]
  · intro dev flags proc
    cases proc with
    | failedToStart msg => simp [Detach, Except.isOk, Except.toBool]
    | started e out =>
      by_cases he : e = 0
      · subst he
        simp [Detach, Except.isOk, Except.toBool]
      · simp [Detach, he, Except.isOk, Except.toBool]
  · intro image flags e out he
    refine ⟨by simp [Attach, he], ?_⟩
    have hdata : (exitStatusMsg e ++ ": " ++ out).data =
        (exitStatusMsg e ++ ": ").data ++ out.data := rfl
    rw [hdata]
    exact occursIn_suffix out.data (exitStatusMsg e ++ ": ").data
  · intro dev flags e out he
    simp [Detach, he]
  · intro image sizeSpec flags proc
    cases proc with
    | failedToStart msg => simp [Create, Except.isOk, Except.toBool]
    | started e out =>
      by_cases he : e = 0
      · subst he
        simp [Create, Except.isOk, Except.toBool]
      · simp [Create, he, Except.isOk, Except.toBool]
  · intro image format outfile flags proc
    cases proc with
    | failedToStart msg => simp [Convert, Except.isOk, Except.toBool]
    | started e out =>
      by_cases he : e = 0
      · subst he
        simp [Convert, Except.isOk, Except.toBool]
      · simp [Convert, he, Except.isOk, Except.toBool]
  · intro img flags proc
    cases proc with
    | failedToStart msg => simp [Verify, Except.isOk, Except.toBool]
    | started e out =>
      by_cases he : e = 0
      · subst he
        simp [Verify, Except.isOk, Except.toBool]
      · simp [Verify, he, Except.isOk, Except.toBool]
  · intro image source flags proc
    cases proc with
    | failedToStart msg => simp [Makehybrid, Except.isOk, Except.toBool]
    | started e out =>
      by_cases he : e = 0
      · subst he
        simp [Makehybrid, Except.isOk, Except.toBool]
      · simp [Makehybrid, he, Except.isOk, Except.toBool]
  · intro image sizeSpec flags e out he
    simp [Create, he]
  · intro image format outfile flags e out he
    simp [Convert, he]
  · intro img flags e out he
    simp [Verify, he]
  · intro image source flags e out he
    simp [Makehybrid, he]

/-- C8 (counterexample): on a non-zero exit `Detach` returns only
`exit status 1`; the text the external process produced does not occur in
that failure, so the error does not carry the process's error text. -/
theorem detach_error_lacks_process_text :
    Detach "/dev/disk2" [] (.started 1 "detach failed - resource busy") =
      .error "exit status 1" ∧
    occursIn "detach failed - resource busy".data "exit status 1".data =
      false :=
  ⟨by rfl, by decide⟩

/-- C8 (witness): the error-reporting theorem applied at concrete non-zero
exit statuses for all six operations. -/
theorem operation_error_witness :
    (Attach "a.dmg" [] (.started 1 "mount failed") =
        .error (exitStatusMsg 1 ++ ": " ++ "mount failed") ∧
      occursIn "mount failed".data
        (exitStatusMsg 1 ++ ": " ++ "mount failed").data = true) ∧
    Detach "/dev/disk3" [] (.started 2 "ignored text") =
      .error (exitStatusMsg 2) ∧
    Create "test" ["-megabytes", "20"] [] (.started 1 "ignored text") =
      .error (exitStatusMsg 1) ∧
    Convert "a.dmg" ["-format", "UDZO"] "out.dmg" [] (.started 1 "ignored text") =
      .error (exitStatusMsg 1) ∧
    Verify "a.dmg" [] (.started 1 "ignored text") = .error (exitStatusMsg 1) ∧
    Makehybrid "hy.dmg" "srcdir" [] (.started 1 "ignored text") =
      .error (exitStatusMsg 1) :=
  ⟨operations_success_iff_zero_exit.2.2.1 "a.dmg" [] 1 "mount failed"
      (by decide),
    operations_success_iff_zero_exit.2.2.2.1 "/dev/disk3" [] 2 "ignored text"
      (by decide),
    operations_success_iff_zero_exit.2.2.2.2.2.2.2.2.1 "test"
      ["-megabytes", "20"] [] 1 "ignored text" (by decide),
    operations_success_iff_zero_exit.2.2.2.2.2.2.2.2.2.1 "a.dmg"
      ["-format", "UDZO"] "out.dmg" [] 1 "ignored text" (by decide),
    operations_success_iff_zero_exit.2.2.2.2.2.2.2.2.2.2.1 "a.dmg" [] 1
      "ignored text" (by decide),
    operations_success_iff_zero_exit.2.2.2.2.2.2.2.2.2.2.2 "hy.dmg" "srcdir"
      [] 1 "ignored text" (by decide)⟩

/-- C10: the Verify verb's checksum-cache option encodes under the external
flag name `force`: `VerifyCache` yields exactly `-force`, `VerifyNoCache`
yields no tokens, and no option of the verify flag set ever contributes a
`-cache` or `-nocache` token, nor does a Verify argument vector contain one
unless the caller passes it as the image path itself. -/
theorem verify_cache_encodes_as_force :
    verifyFlagTokens (.cache VerifyCache) = ["-force"] ∧
    verifyFlagTokens (.cache VerifyNoCache) = [] ∧
    (∀ flags : List VerifyFlag,
        "-cache" ∉ (flags.map verifyFlagTokens).flatten ∧
        "-nocache" ∉ (flags.map verifyFlagTokens).flatten) ∧
    (∀ (img : String) (flags : List VerifyFlag),
        img ≠ "-cache" → img ≠ "-nocache" →
        "-cache" ∉ verifyArgs img flags ∧
        "-nocache" ∉ verifyArgs img flags) := by
  have hflat : ∀ flags : List VerifyFlag,
      "-cache" ∉ (flags.map verifyFlagTokens).flatten ∧
      "-nocache" ∉ (flags.map verifyFlagTokens).flatten := by
    intro flags
    constructor <;>
    · intro hmem
      rw [List.mem_flatten] at hmem
      obtain ⟨l, hl, hx⟩ := hmem
      rw [List.mem_map] at hl
      obtain ⟨f, _, rfl⟩ := hl
      first
        | exact (verifyFlagTokens_no_cache_token f).1 hx
        | exact (verifyFlagTokens_no_cache_token f).2 hx
  refine ⟨rfl, rfl, hflat, ?_⟩
  intro img flags h1 h2
  have hva : verifyArgs img flags =
      ["verify", img] ++ (flags.map verifyFlagTokens).flatten := by
    simpa [verifyArgs] using
      guarded_fold_eq verifyFlagTokens flags ["verify", img]
  rw [hva]
  constructor <;>
  · intro hmem
    rw [List.mem_append] at hmem
    rcases hmem with hm | hm
    · simp only [List.mem_cons, List.not_mem_nil, or_false] at hm
      rcases hm with hm | hm
      · exact absurd hm (by decide)
      · first
          | exact h1 hm.symm
          | exact h2 hm.symm
    · first
        | exact (hflat flags).1 hm
        | exact (hflat flags).2 hm

/-- C10 (witness): the cache-option theorem applied to a concrete Verify
invocation carrying both verify options. -/
theorem verify_cache_witness :
    "-cache" ∉ verifyArgs "test.dmg" [.cache true, .encryption 1] ∧
    "-nocache" ∉ verifyArgs "test.dmg" [.cache true, .encryption 1] :=
  verify_cache_encodes_as_force.2.2.2 "test.dmg" [.cache true, .encryption 1]
    (by decide) (by decide)

end Hdiutil
